import Mathlib

/-!
Verification of the stylelint rule `declaration-property-value-no-unknown`
(src/lib/rules/declaration-property-value-no-unknown/index.js).

The per-declaration pipeline of the rule is embedded shallowly.  External
collaborators (the css-tree value parser, the forked lexer `matchProperty`,
and the repository syntax-classifier utilities, which live outside the
provided sources) are abstracted as components of an environment record, so
every theorem quantifies over their behaviour; the parts of the pipeline that
are the own code of the rule are translated directly from the source.
-/

/-- A css-tree value-tree node, as far as the rule inspects it: its `type`
string, its `name` string (meaningful for `Function` nodes), and its children.
Models the `CssNode` shape consumed by `containsUnsupportedMathFunction`. -/
inductive CssNode : Type where
  | node (type : String) (name : String) (children : List CssNode)

/-- The `type` field of a css-tree node. -/
def CssNode.type : CssNode → String
  | .node t _ _ => t

/-- The `name` field of a css-tree node. -/
def CssNode.name : CssNode → String
  | .node _ n _ => n

/-- The children of a css-tree node. -/
def CssNode.children : CssNode → List CssNode
  | .node _ _ cs => cs

mutual
/-- Depth-first search for a node satisfying `p`, modelling the css-tree
call `find(node, predicate) !== null` used by `containsUnsupportedMathFunction`. -/
def anyNode (p : CssNode → Bool) : CssNode → Bool
  | .node t n cs => p (.node t n cs) || anyNodes p cs

/-- Function `anyNode` mapped over a list of children. -/
def anyNodes (p : CssNode → Bool) : List CssNode → Bool
  | [] => false
  | c :: cs => anyNode p c || anyNodes p cs
end

/-- The predicate of `containsUnsupportedMathFunction`:
`node.type === "Function"` and node name among `clamp`, `min`, `max`. -/
def isUnsupportedMathFunction (n : CssNode) : Bool :=
  n.type == "Function" && (n.name == "clamp" || n.name == "min" || n.name == "max")

/-- Source function `containsUnsupportedMathFunction(cssTreeNode)`:
`Boolean(find(cssTreeNode, isUnsupportedMathFunction))`, a depth-first
search for an unsupported math function node. -/
def containsUnsupportedMathFunction (cssTreeNode : CssNode) : Bool :=
  anyNode isUnsupportedMathFunction cssTreeNode

/-- Node `n` occurs somewhere (at any depth) in the tree `t`. -/
inductive Occurs : CssNode → CssNode → Prop where
  | refl (n : CssNode) : Occurs n n
  | child {n c t : CssNode} (hc : c ∈ t.children) (h : Occurs n c) : Occurs n t

/-- Modelled from the spec: the repository utility `matchesStringOrRegExp`
(not under the provided sources) is abstracted as an opaque-to-the-core
pattern, a boolean predicate on candidate strings, per the spec interface
`matches(candidate, pattern: string|Regex) -> bool`. -/
def Pat : Type := String → Bool

/-- One entry of `Object.entries(secondaryOptions.ignoreProperties)`:
a name pattern paired with a value pattern; `none` models an absent or
falsy value pattern. -/
structure IgnoreRule where
  namePattern : Pat
  valuePattern : Option Pat

/-- Source function `isPropIgnored(name, value)`:
`const [, valuePattern] = ignoreProperties.find(([namePattern]) => matchesStringOrRegExp(name, namePattern)) || [];`
`return valuePattern && matchesStringOrRegExp(value, valuePattern);`
(the truthiness of the returned expression). -/
def isPropIgnored (ignoreProperties : List IgnoreRule) (name value : String) : Bool :=
  match ignoreProperties.find? (fun r => r.namePattern name) with
  | none => false
  | some r =>
    match r.valuePattern with
    | none => false
    | some valuePattern => valuePattern value

/-- The test `/^-moz-initial$/i.test(value)` from the source: the anchored
case-insensitive regex holds exactly when the value, lower-cased character by
character, is the string `-moz-initial`. -/
def isMozInitial (value : String) : Bool :=
  value.toList.map Char.toLower == "-moz-initial".toList

/-- A declaration as the rule reads it: the property name `prop`, the raw
text `between` separating the name from the value in the concrete syntax
(colon plus any whitespace/comments), and the value text `value`. -/
structure Decl where
  prop : String
  between : String
  value : String
deriving DecidableEq

/-- The full declaration text: property name, then the raw separator, then
the value. -/
def declText (decl : Decl) : String :=
  decl.prop ++ decl.between ++ decl.value

/-- Modelled from the spec: the repository utility `declarationValueIndex`
(not under the provided sources) returns the index of the value within the
full declaration text, accounting for the property name length, colon, and
any intervening whitespace/comments per the concrete syntax of the
declaration. -/
def declarationValueIndex (decl : Decl) : Nat :=
  decl.prop.length + decl.between.length

/-- The JavaScript call `s.slice(start, start + len)` for non-negative indices:
drop `start` characters, then take `len`. -/
def sliceStr (s : String) (start len : Nat) : String :=
  String.mk ((s.toList.drop start).take len)

/-- The error component of the `matchProperty` result, as destructured by the
source: `const { mismatchLength, mismatchOffset, name, rawMessage } = error`. -/
structure MatchError where
  name : String
  rawMessage : String
  mismatchOffset : Nat
  mismatchLength : Nat
deriving DecidableEq

/-- The external collaborators of the rule, abstracted as functions:
the repository syntax classifiers (`isStandardSyntaxDeclaration`,
`isStandardSyntaxProperty`, `isStandardSyntaxValue`, `isCustomProperty`,
pure boolean predicates per the spec), the css-tree
call `parse(value, ... context value ...)` (`none` models a thrown parse error),
and the forked lexer `matchProperty` (`none` models a result with no
`error`; `some` carries the destructured error fields). -/
structure Env where
  isStandardSyntaxDeclaration : Decl → Bool
  isStandardSyntaxProperty : String → Bool
  isStandardSyntaxValue : String → Bool
  isCustomProperty : String → Bool
  parseValue : String → Option CssNode
  matchProperty : String → CssNode → Option MatchError

/-- A diagnostic recorded for one declaration: either the parse-failure
warning `result.warn(...)` (anchored at the declaration node, with no
index/endIndex), or the `report(...)` call with its message and its
`index`/`endIndex` offsets into the full declaration text. -/
inductive Diagnostic : Type where
  | parseError (message : String)
  | rejected (message : String) (index : Nat) (endIndex : Nat)
deriving DecidableEq

/-- Source message builder `messages.rejected(property, value)`. -/
def rejectedMessage (property value : String) : String :=
  "Unexpected unknown value \"" ++ value ++ "\" for property \"" ++ property ++ "\""

/-- The message of the parse-failure warning from the source:
`Cannot parse property value "<value>"`. -/
def cannotParseMessage (value : String) : String :=
  "Cannot parse property value \"" ++ value ++ "\""

/-- The body of the `root.walkDecls((decl) => ...)` callback from the source,
translated gate by gate; returns the diagnostic the declaration produces, if
any. -/
def checkDecl (env : Env) (ignoreProperties : List IgnoreRule) (decl : Decl) :
    Option Diagnostic :=
  if isMozInitial decl.value then none
  else if !env.isStandardSyntaxDeclaration decl then none
  else if !env.isStandardSyntaxProperty decl.prop then none
  else if !env.isStandardSyntaxValue decl.value then none
  else if env.isCustomProperty decl.prop then none
  else if isPropIgnored ignoreProperties decl.prop decl.value then none
  else
    match env.parseValue decl.value with
    | none => some (Diagnostic.parseError (cannotParseMessage decl.value))
    | some cssTreeValueNode =>
      if containsUnsupportedMathFunction cssTreeValueNode then none
      else
        match env.matchProperty decl.prop cssTreeValueNode with
        | none => none
        | some err =>
          if err.name != "SyntaxMatchError" then none
          else if err.rawMessage != "Mismatch" then none
          else
            let mismatchValue := sliceStr decl.value err.mismatchOffset err.mismatchLength
            let index := declarationValueIndex decl + err.mismatchOffset
            let endIndex := index + err.mismatchLength
            some (Diagnostic.rejected (rejectedMessage decl.prop mismatchValue) index endIndex)

/-- The rule options after validation: whether `validateOptions` accepted
them, and the ordered `ignoreProperties` entries. -/
structure RuleOptions where
  validOptions : Bool
  ignoreProperties : List IgnoreRule

/-- Modelled from the spec: the repository utility `validateOptions` (not
under the provided sources) surfaces a ConfigurationError once per run,
before any declaration processing begins, when the options are malformed;
with well-formed options it surfaces nothing. -/
def configurationWarnings (opts : RuleOptions) : List String :=
  if opts.validOptions then []
  else ["Invalid options for rule declaration-property-value-no-unknown"]

/-- One run of the rule over the declarations of a stylesheet: the source
returns early when `validateOptions` fails (`if (!validOptions) return;`),
otherwise walks every declaration, each contributing its diagnostic, if
any. -/
def runRule (env : Env) (opts : RuleOptions) (decls : List Decl) :
    List Diagnostic :=
  if !opts.validOptions then []
  else decls.filterMap (checkDecl env opts.ignoreProperties)

/-- A sample parsed value tree: a `Value` node over a single `Identifier`
node named `redd`, as css-tree would produce for the value `redd`. -/
def reddTree : CssNode :=
  CssNode.node "Value" "" [CssNode.node "Identifier" "redd" []]

/-- A sample environment: every declaration, property and value is standard
syntax, no property is custom, every value parses to `reddTree`, and grammar
matching reports a `SyntaxMatchError` with raw message `Mismatch` at the
given value-relative offset and length. -/
def mismatchEnv (off len : Nat) : Env :=
  ⟨fun _ => true, fun _ => true, fun _ => true, fun _ => false,
   fun _ => some reddTree,
   fun _ _ => some ⟨"SyntaxMatchError", "Mismatch", off, len⟩⟩

/-- A sample parsed value tree containing a `clamp` function node nested
inside a `calc` function node, next to an unrelated identifier. -/
def clampTree : CssNode :=
  CssNode.node "Value" ""
    [CssNode.node "Function" "calc" [CssNode.node "Function" "clamp" []],
     CssNode.node "Identifier" "redd" []]

/-- A sample environment like `mismatchEnv`, but whose parser produces
`clampTree` for every value. -/
def clampEnv : Env :=
  ⟨fun _ => true, fun _ => true, fun _ => true, fun _ => false,
   fun _ => some clampTree,
   fun _ _ => some ⟨"SyntaxMatchError", "Mismatch", 0, 4⟩⟩

/-- A sample environment in which every gate passes but value parsing always
throws. -/
def parseFailEnv : Env :=
  ⟨fun _ => true, fun _ => true, fun _ => true, fun _ => false,
   fun _ => none, fun _ _ => none⟩

/-- Helper lemma: with every gate passed, a successful parse, no unsupported
math function, and a `SyntaxMatchError`/`Mismatch` result from the grammar
engine, `checkDecl` reports exactly the diagnostic built at the end of the
walk callback. -/
theorem checkDecl_report (env : Env) (rules : List IgnoreRule) (decl : Decl)
    (tree : CssNode) (err : MatchError)
    (hmoz : isMozInitial decl.value = false)
    (hdecl : env.isStandardSyntaxDeclaration decl = true)
    (hprop : env.isStandardSyntaxProperty decl.prop = true)
    (hval : env.isStandardSyntaxValue decl.value = true)
    (hcustom : env.isCustomProperty decl.prop = false)
    (hignored : isPropIgnored rules decl.prop decl.value = false)
    (hparse : env.parseValue decl.value = some tree)
    (hmath : containsUnsupportedMathFunction tree = false)
    (hmatch : env.matchProperty decl.prop tree = some err)
    (hname : err.name = "SyntaxMatchError")
    (hmsg : err.rawMessage = "Mismatch") :
    checkDecl env rules decl =
      some (Diagnostic.rejected
        (rejectedMessage decl.prop
          (sliceStr decl.value err.mismatchOffset err.mismatchLength))
        (declarationValueIndex decl + err.mismatchOffset)
        (declarationValueIndex decl + err.mismatchOffset + err.mismatchLength)) := by
  simp [checkDecl, hmoz, hdecl, hprop, hval, hcustom, hignored, hparse, hmath,
    hmatch, hname, hmsg]

/-- Helper lemma: `declarationValueIndex` is the index of the value within
the full declaration text: slicing the declaration text there, for the
length of the value, recovers the value. -/
theorem declarationValueIndex_locates_value (decl : Decl) :
    sliceStr (declText decl) (declarationValueIndex decl) decl.value.length
      = decl.value := by
  obtain ⟨⟨p⟩, ⟨b⟩, ⟨v⟩⟩ := decl
  show String.mk ((((p ++ b) ++ v).drop (p.length + b.length)).take v.length)
    = String.mk v
  rw [← List.length_append, List.drop_left, List.take_length]

/-- C1: for a declaration whose value parses and whose grammar match returns
a `SyntaxMatchError`/`Mismatch`, the reported diagnostic has startIndex equal
to the index of the value within the full declaration text plus the
value-relative mismatch offset, endIndex equal to startIndex plus the
mismatch length, and a message containing exactly the substring
`value[mismatchOffset : mismatchOffset + mismatchLength]`. -/
theorem c1_mismatch_diagnostic_localization (env : Env)
    (rules : List IgnoreRule) (decl : Decl) (tree : CssNode) (err : MatchError)
    (hmoz : isMozInitial decl.value = false)
    (hdecl : env.isStandardSyntaxDeclaration decl = true)
    (hprop : env.isStandardSyntaxProperty decl.prop = true)
    (hval : env.isStandardSyntaxValue decl.value = true)
    (hcustom : env.isCustomProperty decl.prop = false)
    (hignored : isPropIgnored rules decl.prop decl.value = false)
    (hparse : env.parseValue decl.value = some tree)
    (hmath : containsUnsupportedMathFunction tree = false)
    (hmatch : env.matchProperty decl.prop tree = some err)
    (hname : err.name = "SyntaxMatchError")
    (hmsg : err.rawMessage = "Mismatch") :
    checkDecl env rules decl =
      some (Diagnostic.rejected
        (rejectedMessage decl.prop
          (sliceStr decl.value err.mismatchOffset err.mismatchLength))
        (declarationValueIndex decl + err.mismatchOffset)
        (declarationValueIndex decl + err.mismatchOffset + err.mismatchLength))
    ∧ sliceStr (declText decl) (declarationValueIndex decl) decl.value.length
        = decl.value
    ∧ ∃ pre post,
        rejectedMessage decl.prop
            (sliceStr decl.value err.mismatchOffset err.mismatchLength)
          = pre ++ sliceStr decl.value err.mismatchOffset err.mismatchLength
              ++ post := by
  refine ⟨checkDecl_report env rules decl tree err hmoz hdecl hprop hval
      hcustom hignored hparse hmath hmatch hname hmsg,
    declarationValueIndex_locates_value decl,
    "Unexpected unknown value \"",
    "\" for property \"" ++ decl.prop ++ "\"", ?_⟩
  simp [rejectedMessage, String.append_assoc]

/-- Witness for C1 at the spec example `color: redd` with a mismatch at
value-relative offset 0, length 4: the range brackets exactly `redd`. -/
theorem c1_witness :
    checkDecl (mismatchEnv 0 4) [] ⟨"color", ": ", "redd"⟩ =
      some (Diagnostic.rejected (rejectedMessage "color" (sliceStr "redd" 0 4)) 7 11)
    ∧ sliceStr (declText ⟨"color", ": ", "redd"⟩) 7 4 = "redd" := by
  exact ⟨(c1_mismatch_diagnostic_localization (mismatchEnv 0 4) []
      ⟨"color", ": ", "redd"⟩ reddTree ⟨"SyntaxMatchError", "Mismatch", 0, 4⟩
      (by decide) rfl rfl rfl rfl rfl rfl (by decide) rfl rfl rfl).1,
    (c1_mismatch_diagnostic_localization (mismatchEnv 0 4) []
      ⟨"color", ": ", "redd"⟩ reddTree ⟨"SyntaxMatchError", "Mismatch", 0, 4⟩
      (by decide) rfl rfl rfl rfl rfl rfl (by decide) rfl rfl rfl).2.1⟩

/-- C9: a declaration whose value is the literal token `-moz-initial` in any
letter case never produces a diagnostic, whatever the syntax classifiers,
ignore rules, value parser or grammar engine would say (the check precedes
every other step). -/
theorem c9_moz_initial_bypass (env : Env) (rules : List IgnoreRule)
    (decl : Decl)
    (h : decl.value.toList.map Char.toLower = "-moz-initial".toList) :
    checkDecl env rules decl = none := by
  have hm : isMozInitial decl.value = true := by
    simp only [isMozInitial, beq_iff_eq]
    exact h
  simp [checkDecl, hm]

/-- Witness for C9: `display: -MOZ-iNiTiAl` produces no diagnostic even in
an environment whose grammar engine reports a mismatch for everything. -/
theorem c9_witness :
    checkDecl (mismatchEnv 0 4) [] ⟨"display", ": ", "-MOZ-iNiTiAl"⟩ = none := by
  exact c9_moz_initial_bypass (mismatchEnv 0 4) []
    ⟨"display", ": ", "-MOZ-iNiTiAl"⟩ (by decide)

/-- C10: the `-moz-initial` bypass requires the whole value to match: a
longer value that merely contains `-moz-initial` as a proper substring is not
skipped by that check and proceeds through the normal pipeline, here all the
way to a mismatch diagnostic. -/
theorem c10_moz_initial_substring_not_skipped (env : Env)
    (rules : List IgnoreRule) (decl : Decl) (pre post : String)
    (tree : CssNode) (err : MatchError)
    (_hcontains : decl.value = pre ++ "-moz-initial" ++ post)
    (hlen : 12 < decl.value.length)
    (hdecl : env.isStandardSyntaxDeclaration decl = true)
    (hprop : env.isStandardSyntaxProperty decl.prop = true)
    (hval : env.isStandardSyntaxValue decl.value = true)
    (hcustom : env.isCustomProperty decl.prop = false)
    (hignored : isPropIgnored rules decl.prop decl.value = false)
    (hparse : env.parseValue decl.value = some tree)
    (hmath : containsUnsupportedMathFunction tree = false)
    (hmatch : env.matchProperty decl.prop tree = some err)
    (hname : err.name = "SyntaxMatchError")
    (hmsg : err.rawMessage = "Mismatch") :
    checkDecl env rules decl =
      some (Diagnostic.rejected
        (rejectedMessage decl.prop
          (sliceStr decl.value err.mismatchOffset err.mismatchLength))
        (declarationValueIndex decl + err.mismatchOffset)
        (declarationValueIndex decl + err.mismatchOffset + err.mismatchLength)) := by
  have hmoz : isMozInitial decl.value = false := by
    by_contra hx
    rw [Bool.not_eq_false] at hx
    have hlist : decl.value.toList.map Char.toLower = "-moz-initial".toList := by
      simpa [isMozInitial] using hx
    have h12 : decl.value.toList.length = 12 := by
      have h := congrArg List.length hlist
      simpa using h
    have h12s : decl.value.length = 12 := h12
    omega
  exact checkDecl_report env rules decl tree err hmoz hdecl hprop hval hcustom
    hignored hparse hmath hmatch hname hmsg

/-- Witness for C10: the value `-moz-initial x` (which contains
`-moz-initial` as a proper substring) is not skipped and yields a mismatch
diagnostic on the trailing `x`. -/
theorem c10_witness :
    checkDecl (mismatchEnv 13 1) [] ⟨"color", ": ", "-moz-initial x"⟩ =
      some (Diagnostic.rejected
        (rejectedMessage "color" (sliceStr "-moz-initial x" 13 1)) 20 21) := by
  exact c10_moz_initial_substring_not_skipped (mismatchEnv 13 1) []
    ⟨"color", ": ", "-moz-initial x"⟩ "" " x" reddTree
    ⟨"SyntaxMatchError", "Mismatch", 13, 1⟩
    (by decide) (by decide) rfl rfl rfl rfl rfl rfl (by decide) rfl rfl rfl

/-- C2: once a declaration reaches grammar matching, a diagnostic is produced
if and only if the match result has an error whose name is exactly
`SyntaxMatchError` and whose raw message is exactly `Mismatch`; an `Ok`
result or any other error kind or message produces no diagnostic. -/
theorem c2_report_iff_mismatch_error (env : Env) (rules : List IgnoreRule)
    (decl : Decl) (tree : CssNode)
    (hmoz : isMozInitial decl.value = false)
    (hdecl : env.isStandardSyntaxDeclaration decl = true)
    (hprop : env.isStandardSyntaxProperty decl.prop = true)
    (hval : env.isStandardSyntaxValue decl.value = true)
    (hcustom : env.isCustomProperty decl.prop = false)
    (hignored : isPropIgnored rules decl.prop decl.value = false)
    (hparse : env.parseValue decl.value = some tree)
    (hmath : containsUnsupportedMathFunction tree = false) :
    (∃ d, checkDecl env rules decl = some d) ↔
      ∃ err, env.matchProperty decl.prop tree = some err
        ∧ err.name = "SyntaxMatchError" ∧ err.rawMessage = "Mismatch" := by
  simp only [checkDecl, hmoz, hdecl, hprop, hval, hcustom, hignored, hparse,
    hmath, Bool.not_true, Bool.false_eq_true, if_false, if_true]
  cases hm : env.matchProperty decl.prop tree with
  | none => simp
  | some err =>
    by_cases hn : err.name = "SyntaxMatchError"
    · by_cases hr : err.rawMessage = "Mismatch"
      · simp [hn, hr]
      · simp [hn, hr]
    · simp [hn]

/-- Witness for C2: in an environment reporting a `SyntaxMatchError` with
raw message `Mismatch`, the equivalence holds at `color: redd`. -/
theorem c2_witness :
    (∃ d, checkDecl (mismatchEnv 0 4) [] ⟨"color", ": ", "redd"⟩ = some d) ↔
      ∃ err, (mismatchEnv 0 4).matchProperty "color" reddTree = some err
        ∧ err.name = "SyntaxMatchError" ∧ err.rawMessage = "Mismatch" := by
  exact c2_report_iff_mismatch_error (mismatchEnv 0 4) []
    ⟨"color", ": ", "redd"⟩ reddTree
    (by decide) rfl rfl rfl rfl rfl rfl (by decide)

/-- C3: ignore-rule evaluation picks the first rule whose name pattern
matches the property; the declaration is ignored if and only if that first
matching rule exists, has a present value pattern, and that value pattern
matches the value.  In particular a first name-matching rule with an absent
value pattern means the declaration is not ignored, whatever later rules
would say. -/
theorem c3_ignore_first_match_wins (rules : List IgnoreRule)
    (name value : String) :
    (isPropIgnored rules name value = true ↔
      ∃ r, rules.find? (fun r => r.namePattern name) = some r
        ∧ ∃ vp, r.valuePattern = some vp ∧ vp value = true)
    ∧ ∀ r, rules.find? (fun r => r.namePattern name) = some r →
        r.valuePattern = none → isPropIgnored rules name value = false := by
  constructor
  · cases hf : rules.find? (fun r => r.namePattern name) with
    | none => simp [isPropIgnored, hf]
    | some r =>
      cases hv : r.valuePattern with
      | none => simp [isPropIgnored, hf, hv]
      | some vp => simp [isPropIgnored, hf, hv]
  · intro r hf hv
    simp [isPropIgnored, hf, hv]

/-- Helper lemma: if `anyNode p` holds at a member of a list of children,
then `anyNodes p` holds on the list. -/
theorem anyNodes_of_mem {p : CssNode → Bool} {c : CssNode}
    {cs : List CssNode} (hc : c ∈ cs) (h : anyNode p c = true) :
    anyNodes p cs = true := by
  induction cs with
  | nil => cases hc
  | cons d ds ih =>
    cases hc with
    | head => simp [anyNodes, h]
    | tail _ hmem => simp [anyNodes, ih hmem]

/-- Helper lemma: the depth-first search at a node tests the node itself and
recurses into its children. -/
theorem anyNode_eq (p : CssNode → Bool) (t : CssNode) :
    anyNode p t = (p t || anyNodes p t.children) := by
  obtain ⟨ty, nm, cs⟩ := t
  rw [anyNode]
  rfl

/-- Helper lemma: a depth-first search succeeds whenever some node occurring
anywhere in the tree satisfies the predicate. -/
theorem anyNode_of_occurs {p : CssNode → Bool} {n t : CssNode}
    (hocc : Occurs n t) (hp : p n = true) : anyNode p t = true := by
  induction hocc with
  | refl => rw [anyNode_eq, hp, Bool.true_or]
  | child hc _ ih =>
    rw [anyNode_eq, anyNodes_of_mem hc ih, Bool.or_true]

/-- C4: a declaration whose parsed value tree contains, at any depth, a
`Function` node named `clamp`, `min` or `max` produces no diagnostic,
whatever else the value contains and whatever the grammar engine would
report. -/
theorem c4_math_function_suppression (env : Env) (rules : List IgnoreRule)
    (decl : Decl) (tree n : CssNode)
    (hparse : env.parseValue decl.value = some tree)
    (hocc : Occurs n tree)
    (hfn : n.type = "Function")
    (hname : n.name = "clamp" ∨ n.name = "min" ∨ n.name = "max") :
    checkDecl env rules decl = none := by
  have hp : isUnsupportedMathFunction n = true := by
    simp only [isUnsupportedMathFunction, hfn, beq_self_eq_true, Bool.true_and]
    rcases hname with h | h | h <;> simp [h]
  have hmath : containsUnsupportedMathFunction tree = true :=
    anyNode_of_occurs hocc hp
  unfold checkDecl
  simp only [hparse, hmath]
  simp

/-- Witness for C4: `width: clamp(1px) redd` is suppressed entirely — no
diagnostic, even though the grammar engine would flag `redd`. -/
theorem c4_witness :
    checkDecl clampEnv [] ⟨"width", ": ", "clamp(1px) redd"⟩ = none := by
  exact c4_math_function_suppression clampEnv []
    ⟨"width", ": ", "clamp(1px) redd"⟩ clampTree
    (CssNode.node "Function" "clamp" [])
    rfl
    (Occurs.child (List.Mem.head _)
      (Occurs.child (List.Mem.head _) (Occurs.refl _)))
    rfl (Or.inl rfl)

/-- C5: an eligible declaration whose value fails to parse yields exactly one
parse-failure diagnostic, anchored at the whole declaration with no sub-range
offsets; grammar matching is not attempted (the outcome is the same for every
possible grammar engine), and processing continues with the remaining
declarations. -/
theorem c5_parse_failure_isolation (env : Env) (opts : RuleOptions)
    (decl : Decl)
    (hvalid : opts.validOptions = true)
    (hmoz : isMozInitial decl.value = false)
    (hdecl : env.isStandardSyntaxDeclaration decl = true)
    (hprop : env.isStandardSyntaxProperty decl.prop = true)
    (hval : env.isStandardSyntaxValue decl.value = true)
    (hcustom : env.isCustomProperty decl.prop = false)
    (hignored : isPropIgnored opts.ignoreProperties decl.prop decl.value = false)
    (hparse : env.parseValue decl.value = none) :
    checkDecl env opts.ignoreProperties decl
        = some (Diagnostic.parseError (cannotParseMessage decl.value))
    ∧ (∀ m, checkDecl { env with matchProperty := m } opts.ignoreProperties decl
        = some (Diagnostic.parseError (cannotParseMessage decl.value)))
    ∧ ∀ rest, runRule env opts (decl :: rest)
        = Diagnostic.parseError (cannotParseMessage decl.value)
            :: runRule env opts rest := by
  have h1 : checkDecl env opts.ignoreProperties decl
      = some (Diagnostic.parseError (cannotParseMessage decl.value)) := by
    simp [checkDecl, hmoz, hdecl, hprop, hval, hcustom, hignored, hparse]
  refine ⟨h1, ?_, ?_⟩
  · intro m
    simp [checkDecl, hmoz, hdecl, hprop, hval, hcustom, hignored, hparse]
  · intro rest
    simp [runRule, hvalid, List.filterMap_cons, h1]

/-- Witness for C5: with `color: redd)` and a parser that throws, exactly the
parse-failure diagnostic is produced. -/
theorem c5_witness :
    checkDecl parseFailEnv [] ⟨"color", ": ", "redd)"⟩
      = some (Diagnostic.parseError (cannotParseMessage "redd)")) := by
  exact (c5_parse_failure_isolation parseFailEnv ⟨true, []⟩
    ⟨"color", ": ", "redd)"⟩ rfl (by decide) rfl rfl rfl rfl rfl rfl).1

/-- C6: a run never produces more diagnostics than there are declarations,
and each declaration contributes no diagnostic, exactly one parse-failure
diagnostic, or exactly one mismatch diagnostic — never more than one. -/
theorem c6_at_most_one_diagnostic (env : Env) (opts : RuleOptions)
    (decls : List Decl) (rules : List IgnoreRule) (decl : Decl) :
    (runRule env opts decls).length ≤ decls.length
    ∧ (checkDecl env rules decl = none
        ∨ (∃ m, checkDecl env rules decl = some (Diagnostic.parseError m))
        ∨ ∃ m i e, checkDecl env rules decl = some (Diagnostic.rejected m i e)) := by
  constructor
  · unfold runRule
    split
    · simp
    · exact List.length_filterMap_le _ _
  · cases h : checkDecl env rules decl with
    | none => exact Or.inl rfl
    | some d =>
      cases d with
      | parseError m => exact Or.inr (Or.inl ⟨m, rfl⟩)
      | rejected m i e => exact Or.inr (Or.inr ⟨m, i, e, rfl⟩)

/-- Counterexample to C7 as stated: nothing in the rule prevents the grammar
engine from reporting a `SyntaxMatchError`/`Mismatch` of length zero, and
then the reported diagnostic has `endIndex` equal to `startIndex` (here both
7), not strictly greater. -/
theorem c7_counterexample :
    checkDecl (mismatchEnv 0 0) [] ⟨"color", ": ", "redd"⟩
        = some (Diagnostic.rejected (rejectedMessage "color" "") 7 7)
    ∧ ¬ (7 : Nat) < 7 := by
  constructor
  · decide
  · decide

/-- C7 amended: every mismatch diagnostic has `startIndex` at least the index
of the value within the declaration text and `endIndex = startIndex + the
mismatch length of the engine`, hence `endIndex ≥ startIndex`, with strict
inequality whenever the mismatch length is positive; both are (non-negative)
offsets relative to the full declaration text. -/
theorem c7_amended_offset_invariant (env : Env) (rules : List IgnoreRule)
    (decl : Decl) (msg : String) (i e : Nat)
    (h : checkDecl env rules decl = some (Diagnostic.rejected msg i e)) :
    declarationValueIndex decl ≤ i ∧ i ≤ e
    ∧ ∃ tree err,
        env.parseValue decl.value = some tree
        ∧ env.matchProperty decl.prop tree = some err
        ∧ i = declarationValueIndex decl + err.mismatchOffset
        ∧ e = i + err.mismatchLength
        ∧ (0 < err.mismatchLength → i < e) := by
  unfold checkDecl at h
  split at h
  · exact Option.noConfusion h
  split at h
  · exact Option.noConfusion h
  split at h
  · exact Option.noConfusion h
  split at h
  · exact Option.noConfusion h
  split at h
  · exact Option.noConfusion h
  split at h
  · exact Option.noConfusion h
  split at h
  · rename_i heq
    simp only [Option.some.injEq] at h
    exact absurd h (by simp)
  rename_i tree heq
  split at h
  · exact Option.noConfusion h
  split at h
  · exact Option.noConfusion h
  rename_i err hmatch
  split at h
  · exact Option.noConfusion h
  split at h
  · exact Option.noConfusion h
  simp only [Option.some.injEq, Diagnostic.rejected.injEq] at h
  obtain ⟨-, hi, he⟩ := h
  refine ⟨?_, ?_, tree, err, heq, hmatch, hi.symm, ?_, ?_⟩
  · omega
  · omega
  · omega
  · omega

/-- Witness for C7 amended, at a mismatch of offset 0 and length 4 inside
`color: redd`: the reported range starts at the value index 7 and ends
strictly after it, at 11. -/
theorem c7_amended_witness :
    declarationValueIndex ⟨"color", ": ", "redd"⟩ ≤ 7 ∧ (7 : Nat) ≤ 11 := by
  exact ⟨(c7_amended_offset_invariant (mismatchEnv 0 4) []
      ⟨"color", ": ", "redd"⟩ (rejectedMessage "color" "redd") 7 11
      (by decide)).1,
    (c7_amended_offset_invariant (mismatchEnv 0 4) []
      ⟨"color", ": ", "redd"⟩ (rejectedMessage "color" "redd") 7 11
      (by decide)).2.1⟩

/-- C8: when the supplied options are malformed, the configuration error is
surfaced once for the run, and the run examines no declaration and produces
no per-declaration diagnostic. -/
theorem c8_invalid_options_halt_run (env : Env) (opts : RuleOptions)
    (decls : List Decl) (h : opts.validOptions = false) :
    configurationWarnings opts
        = ["Invalid options for rule declaration-property-value-no-unknown"]
    ∧ runRule env opts decls = [] := by
  constructor
  · simp [configurationWarnings, h]
  · simp [runRule, h]

/-- Witness for C8: with invalid options, a stylesheet containing `color:
redd` yields the single configuration warning and no diagnostic at all. -/
theorem c8_witness :
    configurationWarnings ⟨false, []⟩
        = ["Invalid options for rule declaration-property-value-no-unknown"]
    ∧ runRule (mismatchEnv 0 4) ⟨false, []⟩ [⟨"color", ": ", "redd"⟩] = [] := by
  exact c8_invalid_options_halt_run (mismatchEnv 0 4) ⟨false, []⟩
    [⟨"color", ": ", "redd"⟩] rfl
